import Mathlib

/-!
Verification of the numerical core of `tesi_prova.py`: the Merton
jump-diffusion path simulator, the calibration objective and multi-run
aggregation, and the three option-pricing routines.

Modelling conventions:
* NumPy floating-point values are modelled as real numbers (`ℝ`);
  where the source explicitly tests for NaN/Inf, the possibly
  non-finite values are modelled as `Option ℝ` (`none` = non-finite)
  and the returned sentinel `np.inf` as `⊤ : EReal`.
* Randomness is made explicit: each random draw the source takes from
  the global NumPy generator becomes a function argument (a stream of
  draws indexed by simulation/step indices).
* `scipy.stats.norm.cdf` is an external library function; pricing
  routines take it as an explicit parameter `Φ : ℝ → ℝ`.
* Python `raise ValueError` is modelled with `Except String`.
-/

namespace TesiProva

open Finset

/-- Embedding of `merton_jump_diffusion_paths` (tesi_prova.py lines 61-99).
`dW i k` is the Brownian increment drawn for path `i`, step `k`
(`np.random.normal(0, sqrt(dt))`), `N_t i k` the Poisson jump count
(`np.random.poisson(lambda_*dt)`), and `jdraw i k` the normal jump-size draw
(`np.random.normal(mu_J, sigma_J)`).  The result is the price array as a
function of (row, column); the source sets column 0 to `S0`, fills columns
`1..num_steps` with `S0 * exp(cumsum(log_returns))`, and finally clamps the
WHOLE array with `np.maximum(S, 1e-8)`. -/
noncomputable def merton_jump_diffusion_paths (S0 r sigma lambda_ mu_J sigma_J : ℝ)
    (dW : ℕ → ℕ → ℝ) (N_t : ℕ → ℕ → ℕ) (jdraw : ℕ → ℕ → ℝ)
    (dt : ℝ := 1) : ℕ → ℕ → ℝ :=
  fun i j =>
    let m : ℝ := Real.exp (mu_J + 0.5 * sigma_J ^ 2) - 1
    let log_returns : ℕ → ℝ := fun k =>
      (r - lambda_ * m - 0.5 * sigma ^ 2) * dt + sigma * dW i k
        + jdraw i k * (N_t i k : ℝ)
    let raw : ℝ :=
      if j = 0 then S0
      else S0 * Real.exp (∑ k ∈ Finset.range j, log_returns k)
    max raw 1e-8

/-- NumPy `np.mean` of the first `n` values of a stream (sum divided by count). -/
noncomputable def npMean (f : ℕ → ℝ) (n : ℕ) : ℝ :=
  (∑ i ∈ Finset.range n, f i) / n

/-- `simulated_log_returns = np.log(simulated_paths[:, 1:] / simulated_paths[:, :-1])`
(tesi_prova.py line 122), entry for row `i` and step `k` (0-based: the return over
columns `k → k+1`). -/
noncomputable def simulated_log_returns (S : ℕ → ℕ → ℝ) (i k : ℕ) : ℝ :=
  Real.log (S i (k + 1) / S i k)

/-- `mean_simulated_returns = np.mean(simulated_log_returns, axis=0)`
(tesi_prova.py line 125): the average over the `num_simulations` rows at step `k`. -/
noncomputable def mean_simulated_returns (S : ℕ → ℕ → ℝ) (num_simulations k : ℕ) : ℝ :=
  npMean (fun i => simulated_log_returns S i k) num_simulations

/-- Embedding of `calculate_mse` (tesi_prova.py lines 101-139) in the real-number
semantics, where every value is finite so the `np.isnan`/`np.isinf` guard of
line 133 never fires.  `historical_returns` is the historical series (values
stream plus its length `histLen`); the simulated average series has length
`num_steps`; both are truncated to `min_len` and compared by mean squared error. -/
noncomputable def calculate_mse (sigma lambda_ mu_J sigma_J : ℝ)
    (historical_returns : ℕ → ℝ) (histLen : ℕ) (S0 r : ℝ)
    (num_steps num_simulations : ℕ)
    (dW : ℕ → ℕ → ℝ) (N_t : ℕ → ℕ → ℕ) (jdraw : ℕ → ℕ → ℝ) : ℝ :=
  let simulated_paths := merton_jump_diffusion_paths S0 r sigma lambda_ mu_J sigma_J dW N_t jdraw
  let min_len := min num_steps histLen
  npMean (fun k => (mean_simulated_returns simulated_paths num_simulations k
    - historical_returns k) ^ 2) min_len

/-- The guard stage of `calculate_mse` (tesi_prova.py lines 128-139) over
possibly non-finite floating-point values: `mean_sim k = none` models a NaN or
infinite entry of the averaged simulated series (length `m`).  When any entry of
the truncated series is non-finite the source returns `np.inf` (modelled `⊤`);
otherwise it returns the real-valued mean squared error. -/
noncomputable def calculate_mse_checked (mean_sim : ℕ → Option ℝ) (m : ℕ)
    (historical_returns : ℕ → ℝ) (histLen : ℕ) : EReal :=
  let min_len := min m histLen
  if ∀ k ∈ Finset.range min_len, (mean_sim k).isSome then
    ((npMean (fun k => ((mean_sim k).getD 0 - historical_returns k) ^ 2) min_len : ℝ) : EReal)
  else ⊤

/-- Specification-style mean squared error, written out directly from the spec
sentence for comparison with `calculate_mse`: per-time-step average over all
simulated paths of the simulated log returns, against the historical log
returns, both truncated to the shorter length. -/
noncomputable def mse_spec (sigma lambda_ mu_J sigma_J : ℝ)
    (historical_returns : ℕ → ℝ) (histLen : ℕ) (S0 r : ℝ)
    (num_steps num_simulations : ℕ)
    (dW : ℕ → ℕ → ℝ) (N_t : ℕ → ℕ → ℕ) (jdraw : ℕ → ℕ → ℝ) : ℝ :=
  let S := merton_jump_diffusion_paths S0 r sigma lambda_ mu_J sigma_J dW N_t jdraw
  let min_len := min num_steps histLen
  (∑ k ∈ Finset.range min_len,
      ((∑ i ∈ Finset.range num_simulations, Real.log (S i (k + 1) / S i k))
          / num_simulations
        - historical_returns k) ^ 2) / min_len

/-- One `differential_evolution` run result, as consumed by
`run_multiple_calibrations`: the optimizer is external (scipy), so a run is
modelled by the fields the source reads from it (`result.x`, `result.fun`,
`result.success`). -/
structure OptResult where
  x : Fin 4 → ℝ
  fval : ℝ
  success : Bool

/-- The accumulation loop of `run_multiple_calibrations` (tesi_prova.py lines
175-184): iterate the runs in order, appending `result`, `result.x` and the
objective value of every run whose `success` flag is set.  The stream `runs`
gives the (externally produced) optimizer result of each run index. -/
def calibration_loop (runs : ℕ → OptResult) :
    ℕ → List OptResult × List (Fin 4 → ℝ) × List ℝ
  | 0 => ([], [], [])
  | n + 1 =>
    let acc := calibration_loop runs n
    let result := runs n
    if result.success then
      (acc.1 ++ [result], acc.2.1 ++ [result.x], acc.2.2 ++ [result.fval])
    else acc

/-- Embedding of `run_multiple_calibrations` (tesi_prova.py lines 174-191):
run the loop, then `avg_params = np.mean(calibrated_parameters, axis=0)`
(coordinate-wise mean) and `avg_mse = np.mean(mses)` when at least one run
succeeded, and `None`/`None` otherwise. -/
noncomputable def run_multiple_calibrations (runs : ℕ → OptResult) (num_runs : ℕ) :
    List OptResult × Option (Fin 4 → ℝ) × Option ℝ :=
  let acc := calibration_loop runs num_runs
  let results := acc.1
  let calibrated_parameters := acc.2.1
  let mses := acc.2.2
  if calibrated_parameters.isEmpty then (results, none, none)
  else
    (results,
      some (fun c => (calibrated_parameters.map (fun p => p c)).sum
        / calibrated_parameters.length),
      some (mses.sum / mses.length))

/-- The error message of the source for an invalid option type (raised as a Python
`ValueError` in all three pricing routines). -/
def valueErrorMsg : String := "ValueError: option_type must be call or put"

/-- Embedding of `black_scholes_option_pricing` (tesi_prova.py lines 198-209).
`Φ` is `scipy.stats.norm.cdf` (external library), passed explicitly.  The source
names the spot argument `ST`. -/
noncomputable def black_scholes_option_pricing (Φ : ℝ → ℝ)
    (ST K T r_annual sigma_annual : ℝ) (option_type : String) : Except String ℝ :=
  let d1 := (Real.log (ST / K) + (r_annual + 0.5 * sigma_annual ^ 2) * T)
    / (sigma_annual * Real.sqrt T)
  let d2 := d1 - sigma_annual * Real.sqrt T
  if option_type = "call" then
    Except.ok (ST * Φ d1 - K * Real.exp (-r_annual * T) * Φ d2)
  else if option_type = "put" then
    Except.ok (K * Real.exp (-r_annual * T) * Φ (-d2) - ST * Φ (-d1))
  else Except.error valueErrorMsg

/-- Result record of `compute_jump_parameters` (the source returns the tuple
`(n_jumps, Z, m_annual, r_n, sigma_n, lambda_n)`). -/
structure JumpParams where
  n_jumps : ℕ
  Z : ℝ
  m_annual : ℝ
  r_n : ℝ
  sigma_n : ℝ
  lambda_n : ℝ

/-- Embedding of `compute_jump_parameters` (tesi_prova.py lines 212-244).  The
two random draws of the source — `n_jumps = np.random.poisson(lambda_annual*T)`
and `Z = np.random.normal(0,1)` — are made explicit arguments. -/
noncomputable def compute_jump_parameters
    (r_annual sigma_annual lambda_annual mu_J_annual sigma_J_annual T : ℝ)
    (n_jumps : ℕ) (Z : ℝ) : JumpParams :=
  let m_annual := Real.exp (mu_J_annual + 0.5 * sigma_J_annual ^ 2) - 1
  let r_n := r_annual - lambda_annual * m_annual
    + ((n_jumps : ℝ) * Real.log (1 + m_annual)) / T
  let sigma_n := Real.sqrt (sigma_annual ^ 2 + (n_jumps : ℝ) * sigma_J_annual ^ 2 / T)
  let lambda_n := lambda_annual * (1 + m_annual)
  ⟨n_jumps, Z, m_annual, r_n, sigma_n, lambda_n⟩

/-- The Poisson probability mass `exp(poisson.logpmf(n, mu))` used as the
weight in `black_scholes_with_jumps` (tesi_prova.py line 287). -/
noncomputable def poissonPmf (n : ℕ) (mu : ℝ) : ℝ :=
  Real.exp (-mu) * mu ^ n / n.factorial

/-- One inner-loop iteration of `black_scholes_with_jumps` (tesi_prova.py lines
283-310) given the Poisson jump count `n` and normal shock `Z` drawn by
`compute_jump_parameters` for that iteration: the weighted price contribution
`poisson_weight * bsc` added to the accumulator, or the `ValueError` of the
invalid-type branch. -/
noncomputable def bwj_step (Φ : ℝ → ℝ)
    (ST K T r_annual sigma_annual lambda_annual mu_J_annual sigma_J_annual : ℝ)
    (option_type : String) (n : ℕ) (Z : ℝ) : Except String ℝ :=
  let p := compute_jump_parameters r_annual sigma_annual lambda_annual
    mu_J_annual sigma_J_annual T n Z
  let poisson_weight := poissonPmf p.n_jumps (p.lambda_n * T)
  let safe_r_n_T := max (min (p.r_n * T) 700) (-700)
  let discount_factor := Real.exp (-safe_r_n_T)
  let d1 := (Real.log (ST / K) + (p.r_n + 0.5 * p.sigma_n ^ 2) * T)
    / (p.sigma_n * Real.sqrt T)
  let d2 := d1 - p.sigma_n * Real.sqrt T
  let d1c := min (max d1 (-10)) 10
  let d2c := min (max d2 (-10)) 10
  if option_type = "call" then
    Except.ok (poisson_weight * (ST * Φ d1c - K * discount_factor * Φ d2c))
  else if option_type = "put" then
    Except.ok (poisson_weight * (K * discount_factor * Φ (-d2c) - ST * Φ (-d1c)))
  else Except.error valueErrorMsg

/-- Embedding of `black_scholes_with_jumps` (tesi_prova.py lines 263-311).
The accumulator starts at 0; the outer loop runs `num_simulations` times and
the inner loop 10 times (its `range(10)` variable is immediately shadowed by
the fresh Poisson draw of `compute_jump_parameters`, so the drawn count
`njDraw i j` is what both the weight and the price adjustment use); finally the
accumulated sum is divided by `num_simulations` (only), a Python
`ZeroDivisionError` when `num_simulations = 0`. -/
noncomputable def black_scholes_with_jumps (Φ : ℝ → ℝ)
    (ST K T r_annual sigma_annual lambda_annual mu_J_annual sigma_J_annual : ℝ)
    (option_type : String) (num_simulations : ℕ)
    (njDraw : ℕ → ℕ → ℕ) (zDraw : ℕ → ℕ → ℝ) : Except String ℝ := do
  let total ← (List.range num_simulations).foldlM (fun acc i =>
    (List.range 10).foldlM (fun acc2 j => do
      let contrib ← bwj_step Φ ST K T r_annual sigma_annual lambda_annual
        mu_J_annual sigma_J_annual option_type (njDraw i j) (zDraw i j)
      pure (acc2 + contrib)) acc) (0 : ℝ)
  if num_simulations = 0 then Except.error "ZeroDivisionError"
  else pure (total / num_simulations)

/-- The module-level (global) names that `monte_carlo_option_pricing` reads
instead of its own arguments: the terminal historical price `ST` and the four
calibrated parameters unpacked from the averaged calibration result
(tesi_prova.py lines 377 and 408). -/
structure Globals where
  ST : ℝ
  sigma_calibrated : ℝ
  lambda_calibrated : ℝ
  mu_J_calibrated : ℝ
  sigma_J_calibrated : ℝ

/-- Python `int(x)`: truncation toward zero. -/
noncomputable def pyInt (x : ℝ) : ℤ :=
  if 0 ≤ x then ⌊x⌋ else -⌊-x⌋

/-- Embedding of `monte_carlo_option_pricing` (tesi_prova.py lines 315-355).
The body overwrites its `num_steps` argument with `int(252*T)` and calls the
path simulator with the globals `ST`, `sigma_calibrated`, `lambda_calibrated`,
`mu_J_calibrated`, `sigma_J_calibrated` (NOT with its `S0`, `sigma`, `lambda_`,
`mu_J`, `sigma_J` arguments), computes the terminal-column payoffs, and
discounts their mean at `exp(-r_annual*T)`. -/
noncomputable def monte_carlo_option_pricing (g : Globals)
    (S0 r r_annual sigma lambda_ mu_J sigma_J T K : ℝ) (option_type : String)
    (num_simulations num_steps : ℕ)
    (dW : ℕ → ℕ → ℝ) (N_t : ℕ → ℕ → ℕ) (jdraw : ℕ → ℕ → ℝ) : Except String ℝ :=
  let num_steps2 := (pyInt (252 * T)).toNat
  let simulated_paths := merton_jump_diffusion_paths g.ST r g.sigma_calibrated
    g.lambda_calibrated g.mu_J_calibrated g.sigma_J_calibrated dW N_t jdraw
  if option_type = "call" then
    Except.ok (Real.exp (-r_annual * T)
      * npMean (fun i => max (simulated_paths i num_steps2 - K) 0) num_simulations)
  else if option_type = "put" then
    Except.ok (Real.exp (-r_annual * T)
      * npMean (fun i => max (K - simulated_paths i num_steps2) 0) num_simulations)
  else Except.error valueErrorMsg

/-! ### Helper lemmas -/

/-- Folding a body that always fails over a nonempty list fails. -/
lemma foldlM_error {α β : Type} (l : List α) (e : String)
    (body : β → α → Except String β)
    (hb : ∀ acc x, body acc x = Except.error e) (hl : l ≠ []) (a : β) :
    l.foldlM body a = Except.error e := by
  cases l with
  | nil => exact absurd rfl hl
  | cons x xs =>
    rw [List.foldlM_cons, hb]
    rfl

/-- Folding a body that always adds the same contribution `c` (in the `Except`
monad, never failing) over a list of length `n` adds `n * c`. -/
lemma foldlM_const_add {α : Type} (l : List α) (c : ℝ)
    (body : ℝ → α → Except String ℝ)
    (hb : ∀ acc x, x ∈ l → body acc x = Except.ok (acc + c)) (a : ℝ) :
    l.foldlM body a = Except.ok (a + l.length * c) := by
  induction l generalizing a with
  | nil =>
    simp
    rfl
  | cons x xs ih =>
    rw [List.foldlM_cons, hb a x (List.mem_cons_self x xs)]
    show xs.foldlM body (a + c) = _
    rw [ih (fun acc y hy => hb acc y (List.mem_cons_of_mem x hy)) (a + c)]
    congr 1
    push_cast [List.length_cons]
    ring

/-! ### C2, C3, C4, C10 -/

/-- C2: `monte_carlo_option_pricing` is driven by the ambient globals and by
`int(252*T)`: with the same globals and the same random draws, changing only
the explicit arguments `S0`, `sigma`, `lambda_`, `mu_J`, `sigma_J` and
`num_steps` does not change the returned price. -/
theorem monte_carlo_ignores_explicit_args (g : Globals)
    (S0 S0x r r_annual sigma sigmax lambda_ lambdax mu_J mu_Jx sigma_J sigma_Jx T K : ℝ)
    (option_type : String) (num_simulations num_steps num_stepsx : ℕ)
    (dW : ℕ → ℕ → ℝ) (N_t : ℕ → ℕ → ℕ) (jdraw : ℕ → ℕ → ℝ) :
    monte_carlo_option_pricing g S0 r r_annual sigma lambda_ mu_J sigma_J T K
      option_type num_simulations num_steps dW N_t jdraw
    = monte_carlo_option_pricing g S0x r r_annual sigmax lambdax mu_Jx sigma_Jx T K
      option_type num_simulations num_stepsx dW N_t jdraw := rfl

/-- C3 (counterexample to the claim as stated): with the valid parameter set
`sigma = 1 > 0`, `lambda = 0 ≥ 0`, `sigma_J = 1 > 0`, `dt = 1 > 0` and the
initial price `S0 = 0`, the entry at step 0 of row 0 is NOT the initial price
(the final `np.maximum(S, 1e-8)` clamp raises it to `1e-8`). -/
theorem merton_paths_initial_value_counterexample :
    merton_jump_diffusion_paths 0 0 1 0 0 1
      (fun _ _ => 0) (fun _ _ => 0) (fun _ _ => 0) 1 0 0 ≠ 0 := by
  unfold merton_jump_diffusion_paths
  norm_num

/-- C3 (amended): for every valid parameter set (`sigma > 0`, `lambda ≥ 0`,
`sigma_J > 0`, `dt > 0`) and every row `i`, the entry at step 0 equals
`max S0 1e-8`; in particular it equals the given initial price `S0` exactly
whenever `S0 ≥ 1e-8`. -/
theorem merton_paths_initial_value (S0 r sigma lambda_ mu_J sigma_J : ℝ)
    (dW : ℕ → ℕ → ℝ) (N_t : ℕ → ℕ → ℕ) (jdraw : ℕ → ℕ → ℝ) (dt : ℝ) (i : ℕ)
    (hsigma : 0 < sigma) (hlambda : 0 ≤ lambda_) (hsigmaJ : 0 < sigma_J)
    (hdt : 0 < dt) :
    merton_jump_diffusion_paths S0 r sigma lambda_ mu_J sigma_J dW N_t jdraw dt i 0
      = max S0 1e-8
    ∧ (1e-8 ≤ S0 →
      merton_jump_diffusion_paths S0 r sigma lambda_ mu_J sigma_J dW N_t jdraw dt i 0
        = S0) := by
  constructor
  · unfold merton_jump_diffusion_paths
    simp
  · intro hS0
    unfold merton_jump_diffusion_paths
    simp [max_eq_left hS0]

/-- Witness for the amended theorem of C3 at a concrete input. -/
theorem merton_paths_initial_value_witness :
    merton_jump_diffusion_paths 100 0 1 0 0 1
      (fun _ _ => 0) (fun _ _ => 0) (fun _ _ => 0) 1 0 0 = 100 :=
  (merton_paths_initial_value 100 0 1 0 0 1
    (fun _ _ => 0) (fun _ _ => 0) (fun _ _ => 0) 1 0
    (by norm_num) (by norm_num) (by norm_num) (by norm_num)).2 (by norm_num)

/-- C4: every entry of the array returned by `merton_jump_diffusion_paths` is
at least the floor constant `1e-8` (so never non-positive); the entries are
real numbers, hence finite. -/
theorem merton_paths_floor (S0 r sigma lambda_ mu_J sigma_J : ℝ)
    (dW : ℕ → ℕ → ℝ) (N_t : ℕ → ℕ → ℕ) (jdraw : ℕ → ℕ → ℝ) (dt : ℝ) (i j : ℕ) :
    (1e-8 : ℝ) ≤ merton_jump_diffusion_paths S0 r sigma lambda_ mu_J sigma_J
      dW N_t jdraw dt i j := by
  unfold merton_jump_diffusion_paths
  exact le_max_right _ _

/-- C10: for `T > 0` and `sigma_annual ≥ 0`, whatever Poisson jump count is
drawn, the adjusted volatility `sigma_n` computed by `compute_jump_parameters`
is at least `sigma_annual`. -/
theorem compute_jump_parameters_sigma_n_ge
    (r_annual sigma_annual lambda_annual mu_J_annual sigma_J_annual T : ℝ)
    (n_jumps : ℕ) (Z : ℝ) (hT : 0 < T) (hsigma : 0 ≤ sigma_annual) :
    sigma_annual ≤ (compute_jump_parameters r_annual sigma_annual lambda_annual
      mu_J_annual sigma_J_annual T n_jumps Z).sigma_n := by
  unfold compute_jump_parameters
  show sigma_annual ≤ Real.sqrt (sigma_annual ^ 2 + (n_jumps : ℝ) * sigma_J_annual ^ 2 / T)
  have hadd : sigma_annual ^ 2 ≤ sigma_annual ^ 2 + (n_jumps : ℝ) * sigma_J_annual ^ 2 / T := by
    have : 0 ≤ (n_jumps : ℝ) * sigma_J_annual ^ 2 / T := by positivity
    linarith
  calc sigma_annual = Real.sqrt (sigma_annual ^ 2) := (Real.sqrt_sq hsigma).symm
    _ ≤ _ := Real.sqrt_le_sqrt hadd

/-- Witness for C10 at a concrete input. -/
theorem compute_jump_parameters_sigma_n_ge_witness :
    (0.2 : ℝ) ≤ (compute_jump_parameters 0.02 0.2 0.5 0 0.1 1 3 0).sigma_n :=
  compute_jump_parameters_sigma_n_ge 0.02 0.2 0.5 0 0.1 1 3 0
    (by norm_num) (by norm_num)

/-! ### C5, C9 -/

/-- C5: the calibration objective is non-negative for all (finite, i.e.
real-valued) inputs, and the guard stage returns the sentinel `⊤` (`np.inf`)
whenever the truncated averaged simulated series contains a non-finite entry. -/
theorem calculate_mse_nonneg_and_sentinel :
    (∀ (sigma lambda_ mu_J sigma_J : ℝ) (historical_returns : ℕ → ℝ)
       (histLen : ℕ) (S0 r : ℝ) (num_steps num_simulations : ℕ)
       (dW : ℕ → ℕ → ℝ) (N_t : ℕ → ℕ → ℕ) (jdraw : ℕ → ℕ → ℝ),
      0 ≤ calculate_mse sigma lambda_ mu_J sigma_J historical_returns histLen
        S0 r num_steps num_simulations dW N_t jdraw)
    ∧ (∀ (mean_sim : ℕ → Option ℝ) (m : ℕ) (historical_returns : ℕ → ℝ)
         (histLen : ℕ),
        (∃ k ∈ Finset.range (min m histLen), mean_sim k = none) →
        calculate_mse_checked mean_sim m historical_returns histLen = ⊤) := by
  constructor
  · intro sigma lambda_ mu_J sigma_J historical_returns histLen S0 r
      num_steps num_simulations dW N_t jdraw
    unfold calculate_mse npMean
    positivity
  · intro mean_sim m historical_returns histLen ⟨k, hk, hnone⟩
    unfold calculate_mse_checked
    rw [if_neg]
    intro hall
    have := hall k hk
    rw [hnone] at this
    exact Bool.noConfusion this

/-- Witness for C5 at concrete inputs: a concrete call of the objective is
non-negative, and a series whose entry 0 is non-finite yields the sentinel. -/
theorem calculate_mse_nonneg_and_sentinel_witness :
    0 ≤ calculate_mse 1 0 0 1 (fun _ => 0) 5 100 0 5 2
      (fun _ _ => 0) (fun _ _ => 0) (fun _ _ => 0)
    ∧ calculate_mse_checked (fun _ => none) 1 (fun _ => 0) 1 = ⊤ :=
  ⟨calculate_mse_nonneg_and_sentinel.1 1 0 0 1 (fun _ => 0) 5 100 0 5 2
      (fun _ _ => 0) (fun _ _ => 0) (fun _ _ => 0),
   calculate_mse_nonneg_and_sentinel.2 (fun _ => none) 1 (fun _ => 0) 1
      ⟨0, by simp, rfl⟩⟩

/-- C9: the real-valued `calculate_mse` equals the specification formula: the
mean squared error between the per-time-step average (over all simulated
paths) of the simulated log returns and the historical log returns, both
truncated to the length of the shorter series. -/
theorem calculate_mse_eq_mse_spec (sigma lambda_ mu_J sigma_J : ℝ)
    (historical_returns : ℕ → ℝ) (histLen : ℕ) (S0 r : ℝ)
    (num_steps num_simulations : ℕ)
    (dW : ℕ → ℕ → ℝ) (N_t : ℕ → ℕ → ℕ) (jdraw : ℕ → ℕ → ℝ) :
    calculate_mse sigma lambda_ mu_J sigma_J historical_returns histLen
      S0 r num_steps num_simulations dW N_t jdraw
    = mse_spec sigma lambda_ mu_J sigma_J historical_returns histLen
      S0 r num_steps num_simulations dW N_t jdraw := by
  unfold calculate_mse mse_spec npMean mean_simulated_returns simulated_log_returns
  rfl

/-! ### C6 -/

/-- The accumulation loop keeps exactly the successful runs, in order. -/
lemma calibration_loop_eq_filter (runs : ℕ → OptResult) (n : ℕ) :
    calibration_loop runs n =
      (((List.range n).map runs).filter (fun r => r.success),
       (((List.range n).map runs).filter (fun r => r.success)).map OptResult.x,
       (((List.range n).map runs).filter (fun r => r.success)).map OptResult.fval) := by
  induction n with
  | zero => rfl
  | succ n ih =>
    rw [List.range_succ]
    simp only [List.map_append, List.filter_append, List.map_cons, List.map_nil,
      List.filter_cons, List.filter_nil]
    show (let acc := calibration_loop runs n
      let result := runs n
      if result.success then
        (acc.1 ++ [result], acc.2.1 ++ [result.x], acc.2.2 ++ [result.fval])
      else acc) = _
    rw [ih]
    by_cases h : (runs n).success
    · simp [h]
    · simp [h]

/-- C6: `run_multiple_calibrations` retains exactly the runs flagged
successful; when none succeed both aggregates are `none`; when at least one
succeeds, the aggregate parameter vector is the coordinate-wise arithmetic mean
of the parameter vectors of the successful runs and the aggregate error is the mean
of their objective values. -/
theorem run_multiple_calibrations_aggregate (runs : ℕ → OptResult) (num_runs : ℕ) :
    (run_multiple_calibrations runs num_runs).1
      = ((List.range num_runs).map runs).filter (fun r => r.success)
    ∧ (((List.range num_runs).map runs).filter (fun r => r.success) = [] →
        (run_multiple_calibrations runs num_runs).2.1 = none
        ∧ (run_multiple_calibrations runs num_runs).2.2 = none)
    ∧ (((List.range num_runs).map runs).filter (fun r => r.success) ≠ [] →
        (run_multiple_calibrations runs num_runs).2.1
          = some (fun c =>
              ((((List.range num_runs).map runs).filter (fun r => r.success)).map
                  (fun r => r.x c)).sum
                / (((List.range num_runs).map runs).filter (fun r => r.success)).length)
        ∧ (run_multiple_calibrations runs num_runs).2.2
          = some (((((List.range num_runs).map runs).filter
                (fun r => r.success)).map OptResult.fval).sum
              / (((List.range num_runs).map runs).filter (fun r => r.success)).length)) := by
  unfold run_multiple_calibrations
  rw [calibration_loop_eq_filter]
  set sel := ((List.range num_runs).map runs).filter (fun r => r.success) with hsel
  by_cases h : sel = []
  · simp [h]
  · have hne : (sel.map OptResult.x).isEmpty = false := by
      simp [List.isEmpty_iff, h]
    refine ⟨by simp [hne], fun habs => absurd habs h, fun _ => ?_⟩
    constructor
    · simp only [hne, Bool.false_eq_true, if_false]
      refine congrArg some (funext fun c => ?_)
      simp [List.map_map, Function.comp_def]
    · simp [hne]

/-- Witness for C6: the spec scenario of 3 runs with exactly one failure — the
aggregate error is the mean of the objective values of the two successful runs. -/
def wruns : ℕ → OptResult
  | 0 => ⟨fun _ => 1, 10, true⟩
  | 1 => ⟨fun _ => 5, 100, false⟩
  | _ => ⟨fun _ => 3, 30, true⟩

/-- Witness for C6 at the 3-runs-1-failed scenario. -/
theorem run_multiple_calibrations_aggregate_witness :
    (run_multiple_calibrations wruns 3).2.2 = some (20 : ℝ) := by
  have h := (run_multiple_calibrations_aggregate wruns 3).2.2
    (by simp [List.range_succ, wruns])
  rw [h.2]
  norm_num [List.range_succ, wruns]

/-! ### C7, C8 -/

/-- C7: for any `option_type` that is neither `"call"` nor `"put"`, all three
pricing routines fail with the `ValueError` (for the jump-adjusted hybrid the
loop body must execute at least once, i.e. `num_simulations ≥ 1`) and return no
price. -/
theorem invalid_option_type_errors (Φ : ℝ → ℝ) (g : Globals)
    (ST K T r_annual sigma_annual lambda_annual mu_J_annual sigma_J_annual : ℝ)
    (S0 r sigma lambda_ mu_J sigma_J : ℝ) (option_type : String)
    (num_simulations num_steps : ℕ)
    (njDraw : ℕ → ℕ → ℕ) (zDraw : ℕ → ℕ → ℝ)
    (dW : ℕ → ℕ → ℝ) (N_t : ℕ → ℕ → ℕ) (jdraw : ℕ → ℕ → ℝ)
    (hc : option_type ≠ "call") (hp : option_type ≠ "put")
    (hN : 1 ≤ num_simulations) :
    black_scholes_option_pricing Φ ST K T r_annual sigma_annual option_type
      = Except.error valueErrorMsg
    ∧ black_scholes_with_jumps Φ ST K T r_annual sigma_annual lambda_annual
        mu_J_annual sigma_J_annual option_type num_simulations njDraw zDraw
      = Except.error valueErrorMsg
    ∧ monte_carlo_option_pricing g S0 r r_annual sigma lambda_ mu_J sigma_J T K
        option_type num_simulations num_steps dW N_t jdraw
      = Except.error valueErrorMsg := by
  refine ⟨by simp [black_scholes_option_pricing, hc, hp], ?_,
    by simp [monte_carlo_option_pricing, hc, hp]⟩
  have hstep : ∀ (n : ℕ) (Z : ℝ), bwj_step Φ ST K T r_annual sigma_annual
      lambda_annual mu_J_annual sigma_J_annual option_type n Z
      = Except.error valueErrorMsg := by
    intro n Z
    simp [bwj_step, hc, hp]
  have hinner : ∀ (acc : ℝ) (i : ℕ),
      (List.range 10).foldlM (fun acc2 j => do
        let contrib ← bwj_step Φ ST K T r_annual sigma_annual lambda_annual
          mu_J_annual sigma_J_annual option_type (njDraw i j) (zDraw i j)
        pure (acc2 + contrib)) acc = Except.error valueErrorMsg := by
    intro acc i
    refine foldlM_error _ _ _ (fun acc2 j => ?_) (by simp) acc
    rw [hstep]
    rfl
  have houter : (List.range num_simulations).foldlM (fun acc i =>
      (List.range 10).foldlM (fun acc2 j => do
        let contrib ← bwj_step Φ ST K T r_annual sigma_annual lambda_annual
          mu_J_annual sigma_J_annual option_type (njDraw i j) (zDraw i j)
        pure (acc2 + contrib)) acc) (0 : ℝ) = Except.error valueErrorMsg := by
    refine foldlM_error _ _ _ (fun acc i => hinner acc i) ?_ 0
    intro habs
    rw [List.range_eq_nil] at habs
    omega
  unfold black_scholes_with_jumps
  rw [houter]
  rfl

/-- Witness for C7 at a concrete invalid option type. -/
theorem invalid_option_type_errors_witness :
    black_scholes_option_pricing (fun _ => 1/2) 100 100 1 0.02 0.2 "straddle"
      = Except.error valueErrorMsg
    ∧ black_scholes_with_jumps (fun _ => 1/2) 100 100 1 0.02 0.2 0.5 0 0.1
        "straddle" 1 (fun _ _ => 0) (fun _ _ => 0)
      = Except.error valueErrorMsg
    ∧ monte_carlo_option_pricing ⟨100, 0.01, 0.05, 0, 0.02⟩ 100 0.0002 0.02
        0.01 0.05 0 0.02 1 100 "straddle" 1 0
        (fun _ _ => 0) (fun _ _ => 0) (fun _ _ => 0)
      = Except.error valueErrorMsg :=
  invalid_option_type_errors (fun _ => 1/2) ⟨100, 0.01, 0.05, 0, 0.02⟩
    100 100 1 0.02 0.2 0.5 0 0.1 100 0.0002 0.01 0.05 0 0.02 "straddle" 1 0
    (fun _ _ => 0) (fun _ _ => 0) (fun _ _ => 0) (fun _ _ => 0) (fun _ _ => 0)
    (by decide) (by decide) (by norm_num)

/-- C8: the closed-form Black-Scholes prices satisfy put-call parity
`call − put = S − K·exp(−r·T)` (exactly, in real arithmetic) at the literal
inputs S=100, K=100, T=1, r=0.02, sigma=0.2, for any cumulative-distribution
function `Φ` with the standard-normal symmetry `Φ(x) + Φ(−x) = 1`. -/
theorem black_scholes_put_call_parity (Φ : ℝ → ℝ)
    (hΦ : ∀ x, Φ x + Φ (-x) = 1) :
    ∃ c p, black_scholes_option_pricing Φ 100 100 1 0.02 0.2 "call"
        = Except.ok c
      ∧ black_scholes_option_pricing Φ 100 100 1 0.02 0.2 "put"
        = Except.ok p
      ∧ c - p = 100 - 100 * Real.exp (-0.02 * 1) := by
  unfold black_scholes_option_pricing
  simp only [reduceIte, String.reduceEq]
  refine ⟨_, _, rfl, rfl, ?_⟩
  have h1 := hΦ ((Real.log (100 / 100) + (0.02 + 0.5 * 0.2 ^ 2) * 1)
    / (0.2 * Real.sqrt 1))
  have h2 := hΦ ((Real.log (100 / 100) + (0.02 + 0.5 * 0.2 ^ 2) * 1)
    / (0.2 * Real.sqrt 1) - 0.2 * Real.sqrt 1)
  linear_combination (100 : ℝ) * h1 - (100 * Real.exp (-0.02 * 1)) * h2

/-- Witness for C8 with a concrete symmetric `Φ`. -/
theorem black_scholes_put_call_parity_witness :
    ∃ c p, black_scholes_option_pricing (fun _ => 1/2) 100 100 1 0.02 0.2 "call"
        = Except.ok c
      ∧ black_scholes_option_pricing (fun _ => 1/2) 100 100 1 0.02 0.2 "put"
        = Except.ok p
      ∧ c - p = 100 - 100 * Real.exp (-0.02 * 1) :=
  black_scholes_put_call_parity (fun _ => 1/2) (fun x => by norm_num)

/-! ### C1 -/

/-- C1 (refuting the claimed agreement): with `lambda_annual = 0` the Poisson
draw of every `compute_jump_parameters` call is 0 (`np.random.poisson(0)` is
identically 0, hypothesis `hdraw`), the Poisson weight is exactly 1, and every
one of the 10 inner iterations of every outer repetition contributes the full
closed-form Black-Scholes price; since the accumulated sum is divided only by
the outer repetition count, `black_scholes_with_jumps` returns exactly TEN
TIMES the `black_scholes_option_pricing` price (whenever the `d1`/`d2` clips
and the `r_n*T` clamp are inactive), not the closed-form price itself. -/
theorem black_scholes_with_jumps_lambda_zero (Φ : ℝ → ℝ)
    (ST K T r_annual sigma_annual mu_J_annual sigma_J_annual : ℝ)
    (num_simulations : ℕ) (njDraw : ℕ → ℕ → ℕ) (zDraw : ℕ → ℕ → ℝ)
    (hsigma : 0 < sigma_annual) (hN : 1 ≤ num_simulations)
    (hdraw : ∀ i j, njDraw i j = 0)
    (hrT1 : -700 ≤ r_annual * T) (hrT2 : r_annual * T ≤ 700)
    (hd1a : -10 ≤ (Real.log (ST / K) + (r_annual + 0.5 * sigma_annual ^ 2) * T)
      / (sigma_annual * Real.sqrt T))
    (hd1b : (Real.log (ST / K) + (r_annual + 0.5 * sigma_annual ^ 2) * T)
      / (sigma_annual * Real.sqrt T) ≤ 10)
    (hd2a : -10 ≤ (Real.log (ST / K) + (r_annual + 0.5 * sigma_annual ^ 2) * T)
      / (sigma_annual * Real.sqrt T) - sigma_annual * Real.sqrt T)
    (hd2b : (Real.log (ST / K) + (r_annual + 0.5 * sigma_annual ^ 2) * T)
      / (sigma_annual * Real.sqrt T) - sigma_annual * Real.sqrt T ≤ 10) :
    ∃ v, black_scholes_option_pricing Φ ST K T r_annual sigma_annual "call"
        = Except.ok v
      ∧ black_scholes_with_jumps Φ ST K T r_annual sigma_annual 0 mu_J_annual
          sigma_J_annual "call" num_simulations njDraw zDraw
        = Except.ok (10 * v) := by
  refine ⟨ST * Φ ((Real.log (ST / K) + (r_annual + 0.5 * sigma_annual ^ 2) * T)
      / (sigma_annual * Real.sqrt T))
    - K * Real.exp (-r_annual * T)
      * Φ ((Real.log (ST / K) + (r_annual + 0.5 * sigma_annual ^ 2) * T)
        / (sigma_annual * Real.sqrt T) - sigma_annual * Real.sqrt T),
    by simp [black_scholes_option_pricing], ?_⟩
  set v : ℝ := ST * Φ ((Real.log (ST / K) + (r_annual + 0.5 * sigma_annual ^ 2) * T)
      / (sigma_annual * Real.sqrt T))
    - K * Real.exp (-r_annual * T)
      * Φ ((Real.log (ST / K) + (r_annual + 0.5 * sigma_annual ^ 2) * T)
        / (sigma_annual * Real.sqrt T) - sigma_annual * Real.sqrt T) with hv
  have hstep : ∀ Z : ℝ, bwj_step Φ ST K T r_annual sigma_annual 0 mu_J_annual
      sigma_J_annual "call" 0 Z = Except.ok v := by
    intro Z
    unfold bwj_step compute_jump_parameters poissonPmf
    simp only [Nat.cast_zero, zero_mul, mul_zero, zero_div, add_zero, sub_zero,
      pow_zero, Nat.factorial_zero, Nat.cast_one, mul_one, one_mul, div_one,
      neg_zero, Real.exp_zero, String.reduceEq, reduceIte]
    rw [Real.sqrt_sq hsigma.le]
    rw [min_eq_left hrT2, max_eq_left hrT1]
    rw [max_eq_left hd1a, min_eq_left hd1b, max_eq_left hd2a, min_eq_left hd2b]
    rw [hv, neg_mul]
  have hinner : ∀ (acc : ℝ) (i : ℕ),
      (List.range 10).foldlM (fun acc2 j => do
        let contrib ← bwj_step Φ ST K T r_annual sigma_annual 0 mu_J_annual
          sigma_J_annual "call" (njDraw i j) (zDraw i j)
        pure (acc2 + contrib)) acc = Except.ok (acc + 10 * v) := by
    intro acc i
    have h := foldlM_const_add (List.range 10) v
      (fun acc2 j => do
        let contrib ← bwj_step Φ ST K T r_annual sigma_annual 0 mu_J_annual
          sigma_J_annual "call" (njDraw i j) (zDraw i j)
        pure (acc2 + contrib))
      (fun acc2 j _ => by
        dsimp only
        rw [hdraw i j, hstep (zDraw i j)]
        rfl) acc
    rw [h]
    norm_num
  have houter := foldlM_const_add (List.range num_simulations) (10 * v)
    (fun acc i => (List.range 10).foldlM (fun acc2 j => do
      let contrib ← bwj_step Φ ST K T r_annual sigma_annual 0 mu_J_annual
        sigma_J_annual "call" (njDraw i j) (zDraw i j)
      pure (acc2 + contrib)) acc)
    (fun acc i _ => hinner acc i) 0
  unfold black_scholes_with_jumps
  rw [houter]
  have hN0 : num_simulations ≠ 0 := by omega
  have hNR : (num_simulations : ℝ) ≠ 0 := Nat.cast_ne_zero.mpr hN0
  show (if num_simulations = 0 then Except.error "ZeroDivisionError"
    else pure ((0 + (List.range num_simulations).length * (10 * v))
      / num_simulations)) = Except.ok (10 * v)
  rw [if_neg hN0]
  simp only [List.length_range, zero_add]
  rw [mul_comm (num_simulations : ℝ) (10 * v), mul_div_assoc, div_self hNR,
    mul_one]
  rfl

/-- Witness for C1 at the failing input S=K=100, T=1, r=0.02, sigma=0.2,
lambda=0, with one outer repetition and a concrete symmetric CDF stand-in. -/
theorem black_scholes_with_jumps_lambda_zero_witness :
    ∃ v, black_scholes_option_pricing (fun _ => 1/2) 100 100 1 0.02 0.2 "call"
        = Except.ok v
      ∧ black_scholes_with_jumps (fun _ => 1/2) 100 100 1 0.02 0.2 0 0 0.1
          "call" 1 (fun _ _ => 0) (fun _ _ => 0)
        = Except.ok (10 * v) := by
  have hlog : Real.log ((100 : ℝ) / 100) = 0 := by
    norm_num [Real.log_one]
  have hsqrt : Real.sqrt 1 = 1 := Real.sqrt_one
  exact black_scholes_with_jumps_lambda_zero (fun _ => 1/2) 100 100 1 0.02 0.2
    0 0.1 1 (fun _ _ => 0) (fun _ _ => 0)
    (by norm_num) (by norm_num) (fun i j => rfl)
    (by norm_num) (by norm_num)
    (by rw [hlog]; rw [hsqrt]; norm_num)
    (by rw [hlog]; rw [hsqrt]; norm_num)
    (by rw [hlog]; rw [hsqrt]; norm_num)
    (by rw [hlog]; rw [hsqrt]; norm_num)

end TesiProva
